import Mathlib

/-!
Verification development for the spam-analysis HTTP endpoint
(src/pages/api/wayback/analyze-spam.js).

The file embeds the handler shallowly: JavaScript values become Lean
inductives and structures, the module-level Map becomes an explicit
association list threaded through the handler, the log array becomes an
explicitly accumulated list, and the injected collaborators
(waybackAdapter.analyzeDomainsForSpam and the stop-word utilities, which
are imported by the handler but whose sources are not part of this
repository snapshot) are modelled from the specification.
-/

namespace AnalyzeSpam

/-- Terminal domain classifications used by the engine, plus the
implementation-internal in-progress marker (PENDING) that the spec allows
the status callback to observe before a terminal status is assigned. -/
inductive Status where
  | CLEAN
  | SUSPICIOUS
  | SPAM
  | UNAVAILABLE
  | NO_SNAPSHOTS
  | PENDING
deriving DecidableEq, Repr

/-- A per-domain status record, the unit pushed through the status callback
and collected into the result list. -/
structure DomainStatus where
  domain : String
  status : Status
  snapshotCount : Nat
  evidence : List (String × Nat)
deriving DecidableEq, Repr

/-- A log entry as built by addLog in the handler: a timestamp (modelled as
a per-request emission counter), a level string (the code calls the field
type) and a message. -/
structure LogEntry where
  timestamp : Nat
  type : String
  message : String
deriving DecidableEq, Repr

/-- The domains field of the request body: missing (or otherwise falsy),
present but not an array, or an array of strings. -/
inductive DomainsField where
  | missing
  | notArray
  | arr (domains : List String)
deriving DecidableEq, Repr

/-- The stopWords field of the request body: absent (or another falsy
value), a delimited string, an array of strings, or a truthy value of any
other shape (a number, an object). -/
inductive StopWordsField where
  | absent
  | str (s : String)
  | arr (ws : List String)
  | other
deriving DecidableEq, Repr

/-- The request body destructured on line 21 of the handler. -/
structure RequestBody where
  domains : DomainsField
  stopWords : StopWordsField
  maxSnapshots : Option Int
deriving DecidableEq, Repr

/-- An HTTP request as seen by the handler: a method and a JSON body. -/
structure Request where
  method : String
  body : RequestBody
deriving DecidableEq, Repr

/-- Modelled from the spec: the default stop-word set, an immutable set of
normalized lowercase spam-indicator tokens supplied by the external
stop-word utility (stopWords.js is not part of this repository snapshot).
The exact tokens are not observable; a representative normalized,
duplicate-free list is used. -/
def defaultStopWords : List String :=
  ["casino", "viagra", "porn", "xxx", "pills", "lottery"]

/-- Whitespace characters removed by trimming. -/
def isSpaceChar (c : Char) : Bool :=
  c = ' ' || c = '\t' || c = '\n' || c = '\r'

/-- Structural trim over the character list of a string. -/
def trimStr (s : String) : String :=
  String.mk (((s.data.dropWhile isSpaceChar).reverse.dropWhile isSpaceChar).reverse)

/-- Structural lower-casing over the character list of a string. -/
def lowerStr (s : String) : String :=
  String.mk (s.data.map Char.toLower)

/-- Splits a character list into the strings delimited by characters
satisfying the predicate (the accumulator holds the current token in
reverse). -/
def splitOnPred (p : Char → Bool) : List Char → List Char → List String
  | [], acc => [String.mk acc.reverse]
  | c :: rest, acc =>
      if p c then String.mk acc.reverse :: splitOnPred p rest []
      else splitOnPred p rest (c :: acc)

/-- Modelled from the spec: parseStopWords turns a delimited string into a
list of raw tokens (the spec says the utility accepts a delimited string
externally). Tokens are split on commas and newlines and trimmed. -/
def parseStopWords (s : String) : List String :=
  (splitOnPred (fun c => c = ',' || c = '\n') s.data []).map trimStr

/-- Modelled from the spec: combineStopWords merges caller-supplied tokens
with the defaults into the canonical StopWordSet: lower-cased, trimmed,
no empty strings, no duplicates (first occurrence kept). -/
def combineStopWords (ws : List String) : List String :=
  (defaultStopWords ++
    (ws.map fun w => lowerStr (trimStr w)).filter fun w => w ≠ "").eraseDups

/-- A snapshot record as consumed by the Snapshot Analyzer: only the
textual content matters to the analysis. -/
structure SnapshotRecord where
  textContent : String

/-- The environment injected into one batch run: the snapshot source
(none models a fetch failure) and an optional batch-level catastrophic
failure (some msg models the scheduler throwing with that message before
any domain is processed). -/
structure Oracle where
  fetch : String → Int → Option (List SnapshotRecord)
  batchFailure : Option String

/-- Modelled from the spec: tokenization used by the Snapshot Analyzer,
lower-casing and splitting on non-alphanumeric boundaries. -/
def tokenize (s : String) : List String :=
  (splitOnPred (fun c => !c.isAlphanum) (s.data.map Char.toLower) []).filter
    fun t => t ≠ ""

/-- Modelled from the spec: the per-snapshot spam score, the total count of
tokens that are stop words. -/
def snapshotScore (stopWords : List String) (snap : SnapshotRecord) : Nat :=
  (tokenize snap.textContent).countP fun t => stopWords.contains t

/-- Modelled from the spec: the aggregate number of occurrences of one stop
word across the snapshots of a domain. -/
def countTerm (snaps : List SnapshotRecord) (w : String) : Nat :=
  (snaps.map fun s => (tokenize s.textContent).count w).sum

/-- Modelled from the spec: the named, overridable classification
threshold (default 1). -/
def SUSPICIOUS_THRESHOLD : Nat := 1

/-- Evidence ordering: count descending, ties broken alphabetically. -/
def evBefore (a b : String × Nat) : Bool :=
  b.2 < a.2 || (b.2 == a.2 && !(b.1 < a.1))

def insertEv (a : String × Nat) : List (String × Nat) → List (String × Nat)
  | [] => [a]
  | b :: rest => if evBefore a b then a :: b :: rest else b :: insertEv a rest

def sortEv : List (String × Nat) → List (String × Nat)
  | [] => []
  | a :: rest => insertEv a (sortEv rest)

/-- Modelled from the spec: the aggregate evidence list of a domain, the
stop words that occur at least once, with counts, sorted by count
descending then alphabetically. -/
def evidenceOf (stopWords : List String) (snaps : List SnapshotRecord) : List (String × Nat) :=
  sortEv (stopWords.filterMap fun w =>
    let c := countTerm snaps w
    if c = 0 then none else some (w, c))

/-- Modelled from the spec: the Domain Classifier. A fetch failure yields
UNAVAILABLE, zero records yield NO_SNAPSHOTS, otherwise the snapshots
(capped at the snapshot limit) are scored and the total score is
classified against the threshold. -/
def classify (oracle : Oracle) (stopWords : List String) (snapshotLimit : Int)
    (domain : String) : DomainStatus :=
  match oracle.fetch domain snapshotLimit with
  | none => ⟨domain, Status.UNAVAILABLE, 0, []⟩
  | some [] => ⟨domain, Status.NO_SNAPSHOTS, 0, []⟩
  | some (s :: snaps) =>
      let used := (s :: snaps).take snapshotLimit.toNat
      let totalScore := (used.map (snapshotScore stopWords)).sum
      let st := if totalScore = 0 then Status.CLEAN
                else if totalScore < SUSPICIOUS_THRESHOLD then Status.SUSPICIOUS
                else Status.SPAM
      ⟨domain, st, used.length, evidenceOf stopWords used⟩

/-- The observable outcome of a successful batch run: the terminal result
per input domain in input order, the messages sent to the log callback,
and the statuses sent to the status callback in emission order. -/
structure EngineOutcome where
  results : List DomainStatus
  messages : List String
  emissions : List DomainStatus
deriving DecidableEq, Repr

/-- Modelled from the spec: the Batch Scheduler
(waybackAdapter.analyzeDomainsForSpam). It fails the whole batch when the
scheduler cannot start (the injected batch failure) or on invalid
configuration (empty domain list, non-positive concurrency); otherwise it
classifies every domain, emits an in-progress marker then the terminal
status per domain, and logs a start line, per-domain failure lines and a
completion line. The bounded-concurrency execution is modelled by its
observable sequential trace. -/
def analyzeDomainsForSpam (oracle : Oracle) (domains : List String)
    (stopWords : List String) (snapshotLimit : Int) (maxConcurrent : Int) :
    Except String EngineOutcome :=
  match oracle.batchFailure with
  | some msg => Except.error msg
  | none =>
    if domains.isEmpty || maxConcurrent < 1 then
      Except.error "invalid batch configuration"
    else
      let results := domains.map (classify oracle stopWords snapshotLimit)
      let emissions := domains.flatMap fun d =>
        [⟨d, Status.PENDING, 0, []⟩, classify oracle stopWords snapshotLimit d]
      let failLines := results.filterMap fun r =>
        if r.status = Status.UNAVAILABLE then some (r.domain ++ " unavailable") else none
      let messages :=
        ("Analyzing " ++ toString domains.length ++ " domain(s)") ::
          (failLines ++ ["Batch complete"])
      Except.ok ⟨results, messages, emissions⟩

/-- The logging context of one request: the logs array built by addLog plus
the emission counter standing in for the wall clock (each addLog stamps the
current counter value and advances it, so stamps record emission order). -/
structure LogCtx where
  logs : List LogEntry
  time : Nat
deriving DecidableEq, Repr

/-- The addLog closure of the handler (lines 14 to 18): appends one entry
carrying the current timestamp, the level and the message. -/
def addLog (ctx : LogCtx) (message : String) (type : String) : LogCtx :=
  ⟨ctx.logs ++ [⟨ctx.time, type, message⟩], ctx.time + 1⟩

/-- Forwarding of engine log messages through the callback
(msg) => addLog(msg, info) on line 59. -/
def addLogs (ctx : LogCtx) (msgs : List String) : LogCtx :=
  msgs.foldl (fun c m => addLog c m "info") ctx

/-- JavaScript Map.set semantics on the association-list model of the
module-level domainStatuses map: replace in place if the key exists,
append otherwise. -/
def mapSet : List (String × DomainStatus) → String → DomainStatus →
    List (String × DomainStatus)
  | [], k, v => [(k, v)]
  | p :: rest, k, v =>
      if p.1 = k then (k, v) :: rest else p :: mapSet rest k v

/-- JavaScript Map.get on the association-list model. -/
def mapGet : List (String × DomainStatus) → String → Option DomainStatus
  | [], _ => none
  | p :: rest, k => if p.1 = k then some p.2 else mapGet rest k

/-- The last status emitted for a given domain in an emission trace. -/
def lastStatusFor (d : String) : List DomainStatus → Option DomainStatus
  | [] => none
  | e :: rest =>
      match lastStatusFor d rest with
      | some v => some v
      | none => if e.domain = d then some e else none

/-- The summary object computed on lines 65 to 72. -/
structure Summary where
  total : Nat
  clean : Nat
  suspicious : Nat
  spam : Nat
  unavailable : Nat
  no_snapshots : Nat
deriving DecidableEq, Repr

/-- The summary computation of the handler: total is the result count and
each named count filters the results by one terminal status value. -/
def mkSummary (results : List DomainStatus) : Summary :=
  { total := results.length
  , clean := (results.filter fun r => r.status == Status.CLEAN).length
  , suspicious := (results.filter fun r => r.status == Status.SUSPICIOUS).length
  , spam := (results.filter fun r => r.status == Status.SPAM).length
  , unavailable := (results.filter fun r => r.status == Status.UNAVAILABLE).length
  , no_snapshots := (results.filter fun r => r.status == Status.NO_SNAPSHOTS).length }

/-- The JSON response sent by the handler: the HTTP status plus the fields
that may appear in the body on the various branches (absent fields are
none). -/
structure HandlerResponse where
  status : Nat
  success : Option Bool
  error : Option String
  message : Option String
  details : Option String
  results : Option (List DomainStatus)
  summary : Option Summary
  logs : Option (List LogEntry)
deriving DecidableEq, Repr

/-- A record of one invocation of the analysis engine with the arguments
the handler passed to it (lines 55 to 62). -/
structure EngineCall where
  domains : List String
  stopWords : List String
  snapshotsLimit : Int
  maxConcurrent : Int
deriving DecidableEq, Repr

/-- Everything observable about one handler run: the response, the
module-level domainStatuses map afterwards, the engine invocations, and
the statuses delivered to the status callback in emission order. -/
structure HandlerOutput where
  resp : HandlerResponse
  map : List (String × DomainStatus)
  engineCalls : List EngineCall
  emitted : List DomainStatus
deriving DecidableEq, Repr

/-- The validation on line 23: domains must be a non-empty array; a
missing, falsy or non-array value and an empty array are all rejected. -/
def validDomains : DomainsField → Option (List String)
  | DomainsField.arr (d :: ds) => some (d :: ds)
  | _ => none

/-- The stop-word normalization on lines 34 to 41, with JavaScript
truthiness: the empty string is falsy, so it keeps the default set; any
truthy non-string non-array value also keeps the default set. -/
def finalStopWordsOf : StopWordsField → List String
  | StopWordsField.str s =>
      if s = "" then defaultStopWords else combineStopWords (parseStopWords s)
  | StopWordsField.arr ws => combineStopWords ws
  | StopWordsField.absent => defaultStopWords
  | StopWordsField.other => defaultStopWords

/-- Line 43, maxSnapshots || 10: an absent or zero (falsy) value becomes
10; every other value, negative ones included, passes through. -/
def jsOrTen : Option Int → Int
  | none => 10
  | some v => if v = 0 then 10 else v

/-- The three start-up log lines emitted on lines 45 to 47. -/
def startCtx (nDomains : Nat) (nStop : Nat) (limit : Int) : LogCtx :=
  addLog (addLog (addLog ⟨[], 0⟩
    ("Starting spam analysis for " ++ toString nDomains ++ " domain(s)") "info")
    ("Using " ++ toString nStop ++ " stop words") "info")
    ("Max snapshots per domain: " ++ toString limit) "info"

/-- The handler. It receives the request, the injected environment and the
current contents of the module-level domainStatuses map, and produces the
response together with the new map contents, the engine invocations and
the status emissions. Branches mirror the source: the method check (lines
9 to 11), the domains validation (lines 23 to 28) whose 400 response
carries a single freshly built error entry, the map clearing (line 31),
stop-word normalization and limit defaulting, the three start-up logs, the
engine call, and the success (200) and failure (500) responses. -/
def handler (req : Request) (oracle : Oracle)
    (map0 : List (String × DomainStatus)) : HandlerOutput :=
  if req.method ≠ "POST" then
    { resp := { status := 405, success := none, error := some "Method not allowed",
                message := none, details := none, results := none,
                summary := none, logs := none }
      map := map0, engineCalls := [], emitted := [] }
  else
    match validDomains req.body.domains with
    | none =>
        { resp := { status := 400, success := none,
                    error := some "domains array is required",
                    message := none, details := none, results := none,
                    summary := none,
                    logs := some [⟨0, "error", "domains array is required"⟩] }
          map := map0, engineCalls := [], emitted := [] }
    | some ds =>
        let finalStopWords := finalStopWordsOf req.body.stopWords
        let snapshotsLimit := jsOrTen req.body.maxSnapshots
        let ctx3 := startCtx ds.length finalStopWords.length snapshotsLimit
        let call : EngineCall := ⟨ds, finalStopWords, snapshotsLimit, 3⟩
        match analyzeDomainsForSpam oracle ds finalStopWords snapshotsLimit 3 with
        | Except.error emsg =>
            let ctx5 := addLog (addLog ctx3 ("❌ Error: " ++ emsg) "error")
              ("❌ Fatal error: " ++ emsg) "error"
            { resp := { status := 500, success := none,
                        error := some "Spam analysis failed",
                        message := some emsg,
                        details := some ("Error: " ++ emsg),
                        results := none, summary := none, logs := some ctx5.logs }
              map := [], engineCalls := [call], emitted := [] }
        | Except.ok out =>
            let ctx4 := addLogs ctx3 out.messages
            let map2 := out.emissions.foldl (fun m e => mapSet m e.domain e) []
            let summary := mkSummary out.results
            let ctx5 := addLog ctx4
              ("✅ Analysis complete: " ++ toString summary.clean ++ " clean, " ++
                toString summary.suspicious ++ " suspicious, " ++
                toString summary.spam ++ " spam") "success"
            { resp := { status := 200, success := some true, error := none,
                        message := none, details := none,
                        results := some out.results, summary := some summary,
                        logs := some ctx5.logs }
              map := map2, engineCalls := [call], emitted := out.emissions }

/-! ### Concrete fixtures used by witnesses and counterexamples -/

/-- An environment in which every snapshot fetch fails. -/
def oracleAllFail : Oracle := ⟨fun _ _ => none, none⟩

/-- An environment in which the batch scheduler itself fails to start. -/
def oracleBoom : Oracle := ⟨fun _ _ => none, some "boom"⟩

/-- A well-formed POST request with two domains and all options omitted. -/
def reqPost : Request :=
  ⟨"POST", ⟨DomainsField.arr ["a.com", "b.com"], StopWordsField.absent, none⟩⟩

/-- A POST request carrying a negative maxSnapshots. -/
def reqNegLimit : Request :=
  ⟨"POST", ⟨DomainsField.arr ["x.com"], StopWordsField.absent, some (-1)⟩⟩

/-- A POST request with an empty domains array. -/
def reqEmptyDomains : Request :=
  ⟨"POST", ⟨DomainsField.arr [], StopWordsField.absent, none⟩⟩

/-- A GET request. -/
def reqGet : Request :=
  ⟨"GET", ⟨DomainsField.arr ["a.com"], StopWordsField.absent, none⟩⟩

/-- A leftover map entry from an earlier request. -/
def stalePrev : List (String × DomainStatus) :=
  [("old.com", ⟨"old.com", Status.CLEAN, 1, []⟩)]

/-! ### Helper lemmas -/

/-- The Domain Classifier only ever returns one of the five terminal
statuses, never the in-progress marker. -/
theorem classify_status_ne_pending (oracle : Oracle) (sw : List String)
    (l : Int) (d : String) : (classify oracle sw l d).status ≠ Status.PENDING := by
  unfold classify
  cases oracle.fetch d l with
  | none => simp
  | some snaps =>
      cases snaps with
      | nil => simp
      | cons s rest =>
          simp only
          split <;> simp_all
          split <;> simp_all

/-- The five terminal-status filters partition any result list that
contains no in-progress marker. -/
theorem sum_status_filters (rs : List DomainStatus)
    (h : ∀ r ∈ rs, r.status ≠ Status.PENDING) :
    (rs.filter fun r => r.status == Status.CLEAN).length +
      (rs.filter fun r => r.status == Status.SUSPICIOUS).length +
      (rs.filter fun r => r.status == Status.SPAM).length +
      (rs.filter fun r => r.status == Status.UNAVAILABLE).length +
      (rs.filter fun r => r.status == Status.NO_SNAPSHOTS).length = rs.length := by
  induction rs with
  | nil => simp
  | cons r rest ih =>
      have hr : r.status ≠ Status.PENDING := h r (List.mem_cons_self r rest)
      have hrest : ∀ x ∈ rest, x.status ≠ Status.PENDING :=
        fun x hx => h x (List.mem_cons_of_mem r hx)
      have ih2 := ih hrest
      cases hst : r.status with
      | PENDING => exact absurd hst hr
      | CLEAN => simp [List.filter_cons, hst]; omega
      | SUSPICIOUS => simp [List.filter_cons, hst]; omega
      | SPAM => simp [List.filter_cons, hst]; omega
      | UNAVAILABLE => simp [List.filter_cons, hst]; omega
      | NO_SNAPSHOTS => simp [List.filter_cons, hst]; omega

/-- Setting a key makes it retrievable. -/
theorem mapGet_mapSet_self (m : List (String × DomainStatus)) (k : String)
    (v : DomainStatus) : mapGet (mapSet m k v) k = some v := by
  induction m with
  | nil => simp [mapSet, mapGet]
  | cons p rest ih =>
      by_cases h : p.1 = k <;> simp [mapSet, mapGet, h, ih]

/-- Setting one key leaves every other key unchanged. -/
theorem mapGet_mapSet_ne (m : List (String × DomainStatus)) (k k2 : String)
    (v : DomainStatus) (h : k ≠ k2) : mapGet (mapSet m k v) k2 = mapGet m k2 := by
  induction m with
  | nil => simp [mapSet, mapGet, h]
  | cons p rest ih =>
      by_cases hp : p.1 = k
      · simp [mapSet, mapGet, hp, h]
      · by_cases hp2 : p.1 = k2 <;> simp [mapSet, mapGet, hp, hp2, Ne.symm h, ih]

/-- Folding the status callback over an emission trace produces, for each
domain, exactly the last status emitted for it (falling back to the prior
map contents for domains that never appear). -/
theorem mapGet_foldl_emissions (es : List DomainStatus)
    (m : List (String × DomainStatus)) (d : String) :
    mapGet (es.foldl (fun acc e => mapSet acc e.domain e) m) d =
      match lastStatusFor d es with
      | some v => some v
      | none => mapGet m d := by
  induction es generalizing m with
  | nil => simp [lastStatusFor]
  | cons e rest ih =>
      simp only [List.foldl_cons, lastStatusFor]
      rw [ih]
      cases hre : lastStatusFor d rest with
      | some v => simp
      | none =>
          by_cases hd : e.domain = d
          · subst hd; simp [mapGet_mapSet_self]
          · simp [hd, mapGet_mapSet_ne _ _ _ _ hd]

/-- Well-formedness of a logging context: entries are strictly ordered by
timestamp (so the list order is the emission order) and every stamp lies
below the current counter. -/
def logTimesOrdered (ctx : LogCtx) : Prop :=
  List.Pairwise (fun a b => a.timestamp < b.timestamp) ctx.logs ∧
    ∀ e ∈ ctx.logs, e.timestamp < ctx.time

/-- Every entry of a context carries one of the three levels used by the
handler. -/
def logTypesOK (ctx : LogCtx) : Prop :=
  ∀ e ∈ ctx.logs, e.type = "info" ∨ e.type = "success" ∨ e.type = "error"

/-- addLog preserves timestamp ordering: it appends an entry stamped with
the current counter, above every existing stamp. -/
theorem logTimesOrdered_addLog (ctx : LogCtx) (m t : String)
    (h : logTimesOrdered ctx) : logTimesOrdered (addLog ctx m t) := by
  obtain ⟨hp, hb⟩ := h
  constructor
  · refine List.pairwise_append.2 ⟨hp, List.pairwise_singleton _ _, ?_⟩
    intro a ha e he
    simp only [List.mem_singleton] at he
    subst he
    exact hb a ha
  · intro e he
    rcases List.mem_append.1 he with h1 | h1
    · exact Nat.lt_succ_of_lt (hb e h1)
    · simp only [List.mem_singleton] at h1
      subst h1
      exact Nat.lt_succ_self _

/-- addLog preserves level membership when called with an allowed level. -/
theorem logTypesOK_addLog (ctx : LogCtx) (m t : String) (h : logTypesOK ctx)
    (ht : t = "info" ∨ t = "success" ∨ t = "error") :
    logTypesOK (addLog ctx m t) := by
  intro e he
  rcases List.mem_append.1 he with h1 | h1
  · exact h e h1
  · simp only [List.mem_singleton] at h1
    subst h1
    exact ht

/-- Folding engine messages through addLog preserves timestamp ordering. -/
theorem logTimesOrdered_addLogs (msgs : List String) (ctx : LogCtx)
    (h : logTimesOrdered ctx) : logTimesOrdered (addLogs ctx msgs) := by
  induction msgs generalizing ctx with
  | nil => exact h
  | cons m rest ih => exact ih _ (logTimesOrdered_addLog ctx m "info" h)

/-- Folding engine messages through addLog preserves level membership. -/
theorem logTypesOK_addLogs (msgs : List String) (ctx : LogCtx)
    (h : logTypesOK ctx) : logTypesOK (addLogs ctx msgs) := by
  induction msgs generalizing ctx with
  | nil => exact h
  | cons m rest ih => exact ih _ (logTypesOK_addLog ctx m "info" h (Or.inl rfl))

/-- The three start-up lines are well ordered. -/
theorem logTimesOrdered_startCtx (a b : Nat) (l : Int) :
    logTimesOrdered (startCtx a b l) := by
  refine logTimesOrdered_addLog _ _ _ (logTimesOrdered_addLog _ _ _
    (logTimesOrdered_addLog _ _ _ ?_))
  exact ⟨List.Pairwise.nil, by simp⟩

/-- The three start-up lines use the info level. -/
theorem logTypesOK_startCtx (a b : Nat) (l : Int) : logTypesOK (startCtx a b l) := by
  refine logTypesOK_addLog _ _ _ (logTypesOK_addLog _ _ _
    (logTypesOK_addLog _ _ _ ?_ (Or.inl rfl)) (Or.inl rfl)) (Or.inl rfl)
  intro e he
  simp at he

/-! ### Claim theorems -/

/-- C2: whenever the domains field is missing, not an array, or an empty
array, the handler rejects the batch with HTTP 400 whose logs are exactly
the single validation-error entry, invokes the engine on nothing, emits no
status, and leaves the accumulated log at that single validation entry. -/
theorem c2_invalid_domains_rejected (req : Request) (oracle : Oracle)
    (map0 : List (String × DomainStatus)) (hm : req.method = "POST")
    (hd : validDomains req.body.domains = none) :
    (handler req oracle map0).resp.status = 400 ∧
    (handler req oracle map0).resp.error = some "domains array is required" ∧
    (handler req oracle map0).resp.logs =
      some [⟨0, "error", "domains array is required"⟩] ∧
    (handler req oracle map0).engineCalls = [] ∧
    (handler req oracle map0).emitted = [] := by
  simp [handler, hm, hd]

/-- C2 witness: the empty domains array is rejected exactly this way. -/
theorem c2_witness :
    (handler reqEmptyDomains oracleAllFail []).resp.status = 400 ∧
    (handler reqEmptyDomains oracleAllFail []).engineCalls = [] :=
  ⟨(c2_invalid_domains_rejected reqEmptyDomains oracleAllFail [] rfl rfl).1,
   (c2_invalid_domains_rejected reqEmptyDomains oracleAllFail [] rfl rfl).2.2.2.1⟩

/-- C8: a request whose method is not POST gets status 405 with error
Method not allowed, no logs field, no engine invocation, no status
emission, and the module map is untouched. -/
theorem c8_method_not_allowed (req : Request) (oracle : Oracle)
    (map0 : List (String × DomainStatus)) (hm : req.method ≠ "POST") :
    (handler req oracle map0).resp.status = 405 ∧
    (handler req oracle map0).resp.error = some "Method not allowed" ∧
    (handler req oracle map0).resp.logs = none ∧
    (handler req oracle map0).engineCalls = [] ∧
    (handler req oracle map0).emitted = [] ∧
    (handler req oracle map0).map = map0 := by
  simp [handler, hm]

/-- C8 witness: a GET request is turned away untouched. -/
theorem c8_witness :
    (handler reqGet oracleAllFail stalePrev).resp.status = 405 ∧
    (handler reqGet oracleAllFail stalePrev).map = stalePrev :=
  ⟨(c8_method_not_allowed reqGet oracleAllFail stalePrev (by decide)).1,
   (c8_method_not_allowed reqGet oracleAllFail stalePrev (by decide)).2.2.2.2.2⟩

/-- C3: when the batch analysis throws, the handler returns HTTP 500
carrying the error message and the accumulated (non-empty) logs, and the
response contains neither results nor a summary. -/
theorem c3_batch_failure_propagated (req : Request) (oracle : Oracle)
    (map0 : List (String × DomainStatus)) (d : String) (ds : List String)
    (emsg : String) (hm : req.method = "POST")
    (hd : req.body.domains = DomainsField.arr (d :: ds))
    (hf : oracle.batchFailure = some emsg) :
    (handler req oracle map0).resp.status = 500 ∧
    (handler req oracle map0).resp.error = some "Spam analysis failed" ∧
    (handler req oracle map0).resp.message = some emsg ∧
    (handler req oracle map0).resp.results = none ∧
    (handler req oracle map0).resp.summary = none ∧
    ∃ L, (handler req oracle map0).resp.logs = some L ∧ L ≠ [] := by
  have hrun : analyzeDomainsForSpam oracle (d :: ds)
      (finalStopWordsOf req.body.stopWords) (jsOrTen req.body.maxSnapshots) 3 =
      Except.error emsg := by
    simp [analyzeDomainsForSpam, hf]
  simp [handler, hm, hd, validDomains, hrun, addLog, startCtx]

/-- C3 witness: a scheduler that cannot start yields a failed batch
invocation. -/
theorem c3_witness :
    (handler reqPost oracleBoom []).resp.status = 500 ∧
    (handler reqPost oracleBoom []).resp.message = some "boom" ∧
    (handler reqPost oracleBoom []).resp.results = none :=
  ⟨(c3_batch_failure_propagated reqPost oracleBoom [] "a.com" ["b.com"] "boom"
      rfl rfl rfl).1,
   (c3_batch_failure_propagated reqPost oracleBoom [] "a.com" ["b.com"] "boom"
      rfl rfl rfl).2.2.1,
   (c3_batch_failure_propagated reqPost oracleBoom [] "a.com" ["b.com"] "boom"
      rfl rfl rfl).2.2.2.1⟩

/-- C1: every successfully completing batch invocation returns HTTP 200
with a summary whose five status counts (all natural numbers) sum to
summary.total, which equals both the number of entries in results and the
number of input domains. -/
theorem c1_summary_partition (req : Request) (oracle : Oracle)
    (map0 : List (String × DomainStatus)) (d : String) (ds : List String)
    (hm : req.method = "POST")
    (hd : req.body.domains = DomainsField.arr (d :: ds))
    (hf : oracle.batchFailure = none) :
    (handler req oracle map0).resp.status = 200 ∧
    ∃ rs sm, (handler req oracle map0).resp.results = some rs ∧
      (handler req oracle map0).resp.summary = some sm ∧
      sm.clean + sm.suspicious + sm.spam + sm.unavailable + sm.no_snapshots =
        sm.total ∧
      sm.total = rs.length ∧ sm.total = (d :: ds).length := by
  have hrun : analyzeDomainsForSpam oracle (d :: ds)
      (finalStopWordsOf req.body.stopWords) (jsOrTen req.body.maxSnapshots) 3 =
      Except.ok
        ⟨(d :: ds).map (classify oracle (finalStopWordsOf req.body.stopWords)
            (jsOrTen req.body.maxSnapshots)),
         ("Analyzing " ++ toString (d :: ds).length ++ " domain(s)") ::
           ((((d :: ds).map (classify oracle (finalStopWordsOf req.body.stopWords)
              (jsOrTen req.body.maxSnapshots))).filterMap fun r =>
              if r.status = Status.UNAVAILABLE then some (r.domain ++ " unavailable")
              else none) ++ ["Batch complete"]),
         (d :: ds).flatMap fun dm =>
           [⟨dm, Status.PENDING, 0, []⟩,
            classify oracle (finalStopWordsOf req.body.stopWords)
              (jsOrTen req.body.maxSnapshots) dm]⟩ := by
    simp [analyzeDomainsForSpam, hf]
  have hstat : (handler req oracle map0).resp.status = 200 := by
    simp [handler, hm, hd, validDomains, hrun]
  have hres : (handler req oracle map0).resp.results =
      some ((d :: ds).map (classify oracle (finalStopWordsOf req.body.stopWords)
        (jsOrTen req.body.maxSnapshots))) := by
    simp [handler, hm, hd, validDomains, hrun]
  have hsum : (handler req oracle map0).resp.summary =
      some (mkSummary ((d :: ds).map (classify oracle
        (finalStopWordsOf req.body.stopWords) (jsOrTen req.body.maxSnapshots)))) := by
    simp [handler, hm, hd, validDomains, hrun]
  have hterm : ∀ r ∈ (d :: ds).map (classify oracle
      (finalStopWordsOf req.body.stopWords) (jsOrTen req.body.maxSnapshots)),
      r.status ≠ Status.PENDING := by
    intro r hr
    rcases List.mem_map.1 hr with ⟨x, _, hx⟩
    rw [← hx]
    exact classify_status_ne_pending _ _ _ _
  refine ⟨hstat, _, _, hres, hsum, ?_, ?_, ?_⟩
  · simpa [mkSummary] using sum_status_filters _ hterm
  · simp [mkSummary]
  · simp [mkSummary]

/-- C1 witness: a concrete two-domain batch satisfies the summary
partition. -/
theorem c1_witness :
    (handler reqPost oracleAllFail []).resp.status = 200 ∧
    ∃ rs sm, (handler reqPost oracleAllFail []).resp.results = some rs ∧
      (handler reqPost oracleAllFail []).resp.summary = some sm ∧
      sm.clean + sm.suspicious + sm.spam + sm.unavailable + sm.no_snapshots =
        sm.total ∧
      sm.total = rs.length ∧ sm.total = 2 :=
  c1_summary_partition reqPost oracleAllFail [] "a.com" ["b.com"] rfl rfl rfl

/-- C4 counterexample: the handler does not reject a non-positive snapshot
limit. With maxSnapshots = -1 and one valid domain the request is answered
with HTTP 200 (not a validation rejection) and the engine is invoked with
the negative limit, so processing does begin. -/
theorem c4_counterexample :
    (handler reqNegLimit oracleAllFail []).resp.status = 200 ∧
    (handler reqNegLimit oracleAllFail []).engineCalls =
      [⟨["x.com"], defaultStopWords, -1, 3⟩] := by
  constructor <;> rfl

/-- C4 amended: the handler performs no validation of maxSnapshots. A
falsy value (absent or 0) is replaced by the default 10; any other value,
negative ones included, is passed to the engine unchanged; in every case
the request is not rejected with a 400 validation error. -/
theorem c4_amended_no_limit_validation (req : Request) (oracle : Oracle)
    (map0 : List (String × DomainStatus)) (d : String) (ds : List String)
    (v : Int) (hm : req.method = "POST")
    (hd : req.body.domains = DomainsField.arr (d :: ds))
    (hms : req.body.maxSnapshots = some v) :
    (handler req oracle map0).resp.status ≠ 400 ∧
    (handler req oracle map0).engineCalls =
      [⟨d :: ds, finalStopWordsOf req.body.stopWords, if v = 0 then 10 else v, 3⟩] := by
  obtain ⟨m, df, swf, msf⟩ := req
  simp only at hm hd hms
  subst hm; subst hd; subst hms
  cases hrun : analyzeDomainsForSpam oracle (d :: ds) (finalStopWordsOf swf)
      (if v = 0 then 10 else v) 3 with
  | error e => simp [handler, validDomains, hrun, jsOrTen]
  | ok out => simp [handler, validDomains, hrun, jsOrTen]

/-- C4 amended witness: maxSnapshots = -1 flows through to the engine. -/
theorem c4_amended_witness :
    (handler reqNegLimit oracleAllFail []).resp.status ≠ 400 ∧
    (handler reqNegLimit oracleAllFail []).engineCalls =
      [⟨["x.com"], finalStopWordsOf reqNegLimit.body.stopWords,
        if (-1 : Int) = 0 then 10 else -1, 3⟩] :=
  c4_amended_no_limit_validation reqNegLimit oracleAllFail [] "x.com" [] (-1)
    rfl rfl rfl

/-- C5: when maxSnapshots is unspecified the engine is invoked exactly
once, with snapshot limit 10 and concurrency bound 3. -/
theorem c5_default_limits (req : Request) (oracle : Oracle)
    (map0 : List (String × DomainStatus)) (d : String) (ds : List String)
    (hm : req.method = "POST")
    (hd : req.body.domains = DomainsField.arr (d :: ds))
    (hms : req.body.maxSnapshots = none) :
    (handler req oracle map0).engineCalls =
      [⟨d :: ds, finalStopWordsOf req.body.stopWords, 10, 3⟩] := by
  obtain ⟨m, df, swf, msf⟩ := req
  simp only at hm hd hms
  subst hm; subst hd; subst hms
  cases hrun : analyzeDomainsForSpam oracle (d :: ds) (finalStopWordsOf swf)
      10 3 with
  | error e => simp [handler, validDomains, hrun, jsOrTen]
  | ok out => simp [handler, validDomains, hrun, jsOrTen]

/-- C5 witness: the all-defaults request calls the engine with limit 10
and concurrency 3. -/
theorem c5_witness :
    (handler reqPost oracleAllFail []).engineCalls =
      [⟨["a.com", "b.com"], finalStopWordsOf reqPost.body.stopWords, 10, 3⟩] :=
  c5_default_limits reqPost oracleAllFail [] "a.com" ["b.com"] rfl rfl rfl

/-- The stop-word normalization exactly as the spec words it: a delimited
string is parsed and merged with the defaults, an array is merged with the
defaults, an absent value keeps the default set unchanged (an ignored
non-string non-array value also falls back to the defaults). -/
def specStopWords : StopWordsField → List String
  | StopWordsField.str s => combineStopWords (parseStopWords s)
  | StopWordsField.arr ws => combineStopWords ws
  | StopWordsField.absent => defaultStopWords
  | StopWordsField.other => defaultStopWords

/-- C6: the handler's stop-word handling coincides with the spec's
canonical normalization on every input shape (for the empty string the
falsy-branch default equals the parse-and-merge result), and every engine
invocation receives exactly that final set. -/
theorem c6_stopwords_canonical :
    (∀ f, finalStopWordsOf f = specStopWords f) ∧
    ∀ req oracle map0 c, c ∈ (handler req oracle map0).engineCalls →
      c.stopWords = finalStopWordsOf req.body.stopWords := by
  constructor
  · intro f
    cases f with
    | str s =>
        by_cases hs : s = ""
        · subst hs
          decide
        · simp [finalStopWordsOf, specStopWords, hs]
    | arr ws => rfl
    | absent => rfl
    | other => rfl
  · intro req oracle map0 c hc
    obtain ⟨m, df, swf, msf⟩ := req
    by_cases hm : m = "POST"
    · cases hvd : validDomains df with
      | none => simp [handler, hm, hvd] at hc
      | some ds =>
          cases hrun : analyzeDomainsForSpam oracle ds (finalStopWordsOf swf)
              (jsOrTen msf) 3 with
          | error e =>
              simp [handler, hm, hvd, hrun] at hc
              subst hc
              rfl
          | ok out =>
              simp [handler, hm, hvd, hrun] at hc
              subst hc
              rfl
    · simp [handler, hm] at hc

/-- C6 witness: the all-defaults request hands the default set to the
engine. -/
theorem c6_witness :
    (⟨["a.com", "b.com"], defaultStopWords, 10, 3⟩ : EngineCall).stopWords =
      finalStopWordsOf reqPost.body.stopWords :=
  c6_stopwords_canonical.2 reqPost oracleAllFail []
    ⟨["a.com", "b.com"], defaultStopWords, 10, 3⟩ (by decide)

/-- The log shape of the failure branch is well ordered and well typed. -/
theorem logsOK_error_branch (a b : Nat) (l : Int) (e1 e2 : String) :
    logTimesOrdered (addLog (addLog (startCtx a b l) e1 "error") e2 "error") ∧
    logTypesOK (addLog (addLog (startCtx a b l) e1 "error") e2 "error") :=
  ⟨logTimesOrdered_addLog _ e2 "error" (logTimesOrdered_addLog _ e1 "error"
      (logTimesOrdered_startCtx a b l)),
   logTypesOK_addLog _ e2 "error" (logTypesOK_addLog _ e1 "error"
      (logTypesOK_startCtx a b l) (Or.inr (Or.inr rfl))) (Or.inr (Or.inr rfl))⟩

/-- The log shape of the success branch is well ordered and well typed. -/
theorem logsOK_ok_branch (a b : Nat) (l : Int) (msgs : List String) (s : String) :
    logTimesOrdered (addLog (addLogs (startCtx a b l) msgs) s "success") ∧
    logTypesOK (addLog (addLogs (startCtx a b l) msgs) s "success") :=
  ⟨logTimesOrdered_addLog _ s "success" (logTimesOrdered_addLogs msgs _
      (logTimesOrdered_startCtx a b l)),
   logTypesOK_addLog _ s "success" (logTypesOK_addLogs msgs _
      (logTypesOK_startCtx a b l)) (Or.inr (Or.inl rfl))⟩

/-- C7: the log sequence of any handler run is append-only in emission
order, witnessed by strictly increasing timestamps along the returned
list, and every entry carries a timestamp, a level drawn from info,
success, error, and a message. -/
theorem c7_log_discipline (req : Request) (oracle : Oracle)
    (map0 : List (String × DomainStatus)) (L : List LogEntry)
    (hL : (handler req oracle map0).resp.logs = some L) :
    List.Pairwise (fun a b => a.timestamp < b.timestamp) L ∧
    ∀ e ∈ L, e.type = "info" ∨ e.type = "success" ∨ e.type = "error" := by
  obtain ⟨m, df, swf, msf⟩ := req
  by_cases hm : m = "POST"
  · cases hvd : validDomains df with
    | none =>
        simp [handler, hm, hvd] at hL
        subst hL
        constructor
        · exact List.pairwise_singleton _ _
        · intro e he
          simp only [List.mem_singleton] at he
          subst he
          exact Or.inr (Or.inr rfl)
    | some ds =>
        cases hrun : analyzeDomainsForSpam oracle ds (finalStopWordsOf swf)
            (jsOrTen msf) 3 with
        | error e =>
            simp [handler, hm, hvd, hrun] at hL
            subst hL
            have h := logsOK_error_branch ds.length (finalStopWordsOf swf).length
              (jsOrTen msf) ("❌ Error: " ++ e) ("❌ Fatal error: " ++ e)
            exact ⟨h.1.1, h.2⟩
        | ok out =>
            simp [handler, hm, hvd, hrun] at hL
            subst hL
            have h := logsOK_ok_branch ds.length (finalStopWordsOf swf).length
              (jsOrTen msf) out.messages
              ("✅ Analysis complete: " ++ toString (mkSummary out.results).clean ++
                " clean, " ++ toString (mkSummary out.results).suspicious ++
                " suspicious, " ++ toString (mkSummary out.results).spam ++ " spam")
            exact ⟨h.1.1, h.2⟩
  · simp [handler, hm] at hL

/-- C7 witness: the logs of a concrete failed-fetch batch obey the
discipline. -/
theorem c7_witness :
    List.Pairwise (fun a b => a.timestamp < b.timestamp)
      ((handler reqPost oracleAllFail []).resp.logs.getD []) ∧
    ∀ e ∈ (handler reqPost oracleAllFail []).resp.logs.getD [],
      e.type = "info" ∨ e.type = "success" ∨ e.type = "error" :=
  c7_log_discipline reqPost oracleAllFail []
    ((handler reqPost oracleAllFail []).resp.logs.getD []) (by decide)

/-- C9: the domainStatuses map is shared module state: a request turned
away by the method check or the domains validation leaves it untouched
(so a stale entry from an earlier request survives), while a valid request
clears it and ends with exactly the latest status the status callback
reported per domain. -/
theorem c9_module_map (req : Request) (oracle : Oracle)
    (map0 : List (String × DomainStatus)) :
    ((req.method ≠ "POST" ∨ validDomains req.body.domains = none) →
      (handler req oracle map0).map = map0) ∧
    ∀ ds d, req.method = "POST" → validDomains req.body.domains = some ds →
      mapGet (handler req oracle map0).map d =
        lastStatusFor d (handler req oracle map0).emitted := by
  constructor
  · rintro (hm | hd)
    · simp [handler, hm]
    · by_cases hm : req.method = "POST"
      · simp [handler, hm, hd]
      · simp [handler, hm]
  · intro ds d hm hd
    cases hrun : analyzeDomainsForSpam oracle ds (finalStopWordsOf req.body.stopWords)
        (jsOrTen req.body.maxSnapshots) 3 with
    | error e => simp [handler, hm, hd, hrun, mapGet, lastStatusFor]
    | ok out =>
        have h1 : (handler req oracle map0).map =
            out.emissions.foldl (fun acc e => mapSet acc e.domain e) [] := by
          simp [handler, hm, hd, hrun]
        have h2 : (handler req oracle map0).emitted = out.emissions := by
          simp [handler, hm, hd, hrun]
        rw [h1, h2, mapGet_foldl_emissions]
        cases lastStatusFor d out.emissions <;> simp [mapGet]

/-- C9 witness: a rejected GET leaves a stale entry in place, and after a
valid request the map agrees with the last emission per domain. -/
theorem c9_witness :
    (handler reqGet oracleAllFail stalePrev).map = stalePrev ∧
    mapGet (handler reqPost oracleAllFail []).map "a.com" =
      lastStatusFor "a.com" (handler reqPost oracleAllFail []).emitted :=
  ⟨(c9_module_map reqGet oracleAllFail stalePrev).1 (Or.inl (by decide)),
   (c9_module_map reqPost oracleAllFail []).2 ["a.com", "b.com"] "a.com" rfl rfl⟩

/-- C10: a stopWords value that is neither a string nor an array is
silently ignored: the run is observably identical to the same request
with stopWords absent (same response, same logs, same map, same engine
calls), and the final stop-word set is the default one. -/
theorem c10_other_stopwords_ignored (m : String) (df : DomainsField)
    (ms : Option Int) (oracle : Oracle) (map0 : List (String × DomainStatus)) :
    handler ⟨m, ⟨df, StopWordsField.other, ms⟩⟩ oracle map0 =
      handler ⟨m, ⟨df, StopWordsField.absent, ms⟩⟩ oracle map0 ∧
    finalStopWordsOf StopWordsField.other = defaultStopWords :=
  ⟨rfl, rfl⟩

end AnalyzeSpam
